import Mathlib

/-!
Shallow embedding of the `board_id` crate (`src/lib.rs`).

The crate packs up to three optional byte streams (vendor, name, version of a
motherboard) into one fixed 255-byte buffer (`BoardId::BUFSZ = u8::MAX`),
recording three exclusive-end offsets, and exposes three slice accessors plus a
`Display` cascade.

Modelling choices:
* bytes are `Nat` (the source's `u8` buffer contents are only moved, never
  computed with, so no wrap-around modelling is needed for data bytes);
* the offsets are stored through an explicit `% 256`, modelling the `as u8`
  casts in `from_streams`;
* a stream (`impl Read`) is modelled as the byte list it yields, with the
  semantics of Rust's `&[u8]` reader: each `read` call copies
  `min (free space) (remaining length)` bytes, so the loop in
  `from_streams::read` performs maximal reads;
* fallible operations return `Except ErrorKind`; `ErrorKind.writeZero` models
  the `io::ErrorKind::WriteZero` "motherboard ID is abnormally large" error,
  the only error the embedded code itself creates (byte-list streams never
  fail).
-/

namespace Board

/-- The buffer size, `BoardId::BUFSZ = u8::MAX as usize = 255`. -/
def BUFSZ : Nat := 255

/-- The io error kinds produced by the embedded code. `writeZero` models
`io::ErrorKind::WriteZero`, the capacity-exceeded error of `from_streams`. -/
inductive ErrorKind where
  | writeZero
deriving DecidableEq, Repr

/-- Motherboard ID (`struct BoardId`). Fields `vendor_end`, `name_end`,
`version_end` model the source's `vendor`, `name`, `version` offset fields
(renamed so the slice accessors can keep the source's method names). The
`u8` offsets are `Nat`s here; `from_streams` stores them reduced `% 256`. -/
structure BoardId where
  /-- The data buffer (`buffer: [u8; Self::BUFSZ]`), kept at length `BUFSZ`. -/
  buffer : List Nat
  /-- The exclusive end for the vendor part. -/
  vendor_end : Nat
  /-- The exclusive end for the name part. -/
  name_end : Nat
  /-- The exclusive end for the version part. -/
  version_end : Nat
deriving DecidableEq, Repr

/-- Overwrite `l` starting at index `pos` with `data`: the effect of copying
`data` into the subslice `l[pos..pos + data.len()]`. -/
def writeAt (l : List Nat) (pos : Nat) (data : List Nat) : List Nat :=
  l.take pos ++ data ++ l.drop (pos + data.length)

/-- The loop body of `from_streams::read`: `region` is the current contents of
the slice passed to `read`, `s` the bytes the stream still has to give, `n` the
bytes written so far. Each iteration checks `buf.is_empty()` (here:
`region.length - n = 0`), then performs one maximal `stream.read(buf)` of
`m = min (region.length - n) s.length` bytes, breaking when `m = 0`. -/
def readAux (region s : List Nat) (n : Nat) : Except ErrorKind (List Nat × Nat) :=
  if region.length - n = 0 then
    .error .writeZero
  else
    let m := min (region.length - n) s.length
    if h : m = 0 then
      .ok (region, n)
    else
      readAux (writeAt region n (s.take m)) (s.drop m) (n + m)
termination_by s.length
decreasing_by
  simp only [List.length_drop]
  have hm : 0 < m := Nat.pos_of_ne_zero h
  have hms : m ≤ s.length := Nat.min_le_right _ _
  omega

/-- The helper `read` of `from_streams`: runs the loop from `n = 0` and returns
the final region contents together with `n.saturating_sub(1)` (drop the
trailing NL; `Nat` subtraction is already saturating). Note the region keeps
all `n` bytes written, including the trailing byte the count drops. -/
def read (region s : List Nat) : Except ErrorKind (List Nat × Nat) :=
  match readAux region s 0 with
  | .error e => .error e
  | .ok (region, n) => .ok (region, n - 1)

/-- One `src.map_or(Ok(0), |r| read(&mut buffer[pos..], r))` step of
`from_streams`, with the mutation through the subslice `&mut buffer[pos..]`
made explicit: the suffix region is passed to `read` and the returned region is
written back. -/
def readOpt (buffer : List Nat) (pos : Nat) : Option (List Nat) → Except ErrorKind (List Nat × Nat)
  | none => .ok (buffer, 0)
  | some s =>
    match read (buffer.drop pos) s with
    | .error e => .error e
    | .ok (region, n) => .ok (buffer.take pos ++ region, n)

/-- The constructor `BoardId::from_streams`: zero the buffer, read the three optional streams
in order, each at the cursor the previous one left, and pack the offsets
(through `as u8`, i.e. `% 256`). -/
def from_streams (vendor name version : Option (List Nat)) : Except ErrorKind BoardId := do
  let buffer := List.replicate BUFSZ 0
  let (buffer, vendor_count) ← readOpt buffer 0 vendor
  let (buffer, name_count) ← readOpt buffer vendor_count name
  let (buffer, version_count) ← readOpt buffer (vendor_count + name_count) version
  pure {
    buffer := buffer
    vendor_end := vendor_count % 256
    name_end := (vendor_count + name_count) % 256
    version_end := (vendor_count + name_count + version_count) % 256
  }

/-- Accessor `BoardId::vendor`: present iff `vendor_end > 0`; the slice
`&self.buffer[..self.vendor]`. -/
def BoardId.vendor (b : BoardId) : Option (List Nat) :=
  if 0 < b.vendor_end then some (b.buffer.take b.vendor_end) else none

/-- Accessor `BoardId::name`: present iff `vendor_end != name_end`; the slice
`&self.buffer[self.vendor..self.name]`. -/
def BoardId.name (b : BoardId) : Option (List Nat) :=
  if b.vendor_end ≠ b.name_end then some ((b.buffer.take b.name_end).drop b.vendor_end) else none

/-- Accessor `BoardId::version`: present iff `name_end < version_end`; the slice
`&self.buffer[self.name..self.version]`. -/
def BoardId.version (b : BoardId) : Option (List Nat) :=
  if b.name_end < b.version_end then some ((b.buffer.take b.version_end).drop b.name_end) else none

/-- Rust range slicing `l[a..b]` with its bounds check: `none` models the
panic taken when `a > b` or `b > l.len()`. -/
def sliceChecked (l : List Nat) (a b : Nat) : Option (List Nat) :=
  if a ≤ b ∧ b ≤ l.length then some ((l.take b).drop a) else none

/-- Accessor `BoardId::vendor` with the slice's bounds check kept: the outer `none`
models a panic. `bool::then_some` evaluates its argument eagerly, so the slice
is taken before the presence test. -/
def BoardId.vendorChecked (b : BoardId) : Option (Option (List Nat)) :=
  (sliceChecked b.buffer 0 b.vendor_end).map fun s =>
    if 0 < b.vendor_end then some s else none

/-- Accessor `BoardId::name` with the slice's bounds check kept (see `vendorChecked`). -/
def BoardId.nameChecked (b : BoardId) : Option (Option (List Nat)) :=
  (sliceChecked b.buffer b.vendor_end b.name_end).map fun s =>
    if b.vendor_end ≠ b.name_end then some s else none

/-- Accessor `BoardId::version` with the slice's bounds check kept (see
`vendorChecked`). -/
def BoardId.versionChecked (b : BoardId) : Option (Option (List Nat)) :=
  (sliceChecked b.buffer b.name_end b.version_end).map fun s =>
    if b.name_end < b.version_end then some s else none

/-- Hexadecimal digit character for `n < 16`, lowercase as in
`core::ascii::escape_default`. -/
def hexDigit (n : Nat) : Char :=
  if n < 10 then Char.ofNat (48 + n) else Char.ofNat (87 + n)

/-- One byte of `u8::escape_ascii` / `ascii::escape_default`: tab, CR, NL,
backslash, apostrophe and double quote get two-character escapes, printable
ASCII stands for itself, everything else becomes a lowercase hex escape. -/
def escapeByte (c : Nat) : String :=
  if c = 9 then String.mk [Char.ofNat 92, Char.ofNat 116]
  else if c = 13 then String.mk [Char.ofNat 92, Char.ofNat 114]
  else if c = 10 then String.mk [Char.ofNat 92, Char.ofNat 110]
  else if c = 92 then String.mk [Char.ofNat 92, Char.ofNat 92]
  else if c = 39 then String.mk [Char.ofNat 92, Char.ofNat 39]
  else if c = 34 then String.mk [Char.ofNat 92, Char.ofNat 34]
  else if 32 ≤ c ∧ c ≤ 126 then String.mk [Char.ofNat c]
  else String.mk [Char.ofNat 92, Char.ofNat 120, hexDigit (c / 16), hexDigit (c % 16)]

/-- The rendering `<[u8]>::escape_ascii` of a byte string, as the `String` it displays as. -/
def escapeAscii (s : List Nat) : String :=
  String.join (s.map escapeByte)

/-- The `Display` impl for `BoardId`: the formatter output as a `String`,
with the same control flow as the source (`wrote_vendor` / `detected_name`
bookkeeping, early return on the undetected case). -/
def BoardId.display (b : BoardId) : String :=
  let (out, wrote_vendor) :=
    match b.vendor with
    | some v => (escapeAscii v ++ " ", true)
    | none => ("", false)
  match b.name with
  | some n =>
    let out := out ++ escapeAscii n
    match b.version with
    | some v => out ++ " " ++ escapeAscii v
    | none => out
  | none =>
    if wrote_vendor then out ++ "motherboard"
    else "undetected motherboard"

/-- Payload length a source contributes: `read` returns
`content.length.saturating_sub 1`, an absent source contributes `0`. -/
def srcCount : Option (List Nat) → Nat
  | none => 0
  | some s => s.length - 1

/-- The three accessor results of a construction attempt, the observable
behaviour of a `BoardId` (errors pass through). -/
def obs (r : Except ErrorKind BoardId) : Except ErrorKind (Option (List Nat) × Option (List Nat) × Option (List Nat)) :=
  r.map fun b => (b.vendor, b.name, b.version)

/-! Basic facts about `writeAt`. -/

lemma writeAt_nil (l : List Nat) (pos : Nat) : writeAt l pos [] = l := by
  simp [writeAt]

lemma length_writeAt (l data : List Nat) (pos : Nat) (h : pos + data.length ≤ l.length) :
    (writeAt l pos data).length = l.length := by
  simp only [writeAt, List.length_append, List.length_take, List.length_drop]
  omega

lemma take_writeAt (l data : List Nat) (pos k : Nat) (hk : k ≤ pos) (hp : pos ≤ l.length) :
    (writeAt l pos data).take k = l.take k := by
  unfold writeAt
  rw [List.take_append_of_le_length (by simp [List.length_take]; omega),
    List.take_append_of_le_length (by simp [List.length_take]; omega), List.take_take,
    Nat.min_eq_left hk]

lemma middle_writeAt (l data : List Nat) (pos k : Nat) (hp : pos ≤ l.length)
    (hk : k ≤ data.length) :
    ((writeAt l pos data).take (pos + k)).drop pos = data.take k := by
  unfold writeAt
  rw [List.drop_take, List.append_assoc, List.drop_append_eq_append_drop]
  have h3 : (l.take pos).length = pos := by simp [List.length_take]; omega
  have h4 : (l.take pos).drop pos = [] := by
    rw [List.drop_take]
    simp
  rw [h3, h4, Nat.sub_self, List.drop_zero, List.nil_append, Nat.add_sub_cancel_left,
    List.take_append_of_le_length hk]

/-- Closed form of the `read` loop on a byte-list stream: the loop errors iff
the stream content does not fit strictly below the region's free space,
otherwise it writes the whole content at the cursor and returns the total. -/
lemma readAux_eq (region s : List Nat) (n : Nat) :
    readAux region s n =
      if region.length ≤ n + s.length then .error .writeZero
      else .ok (writeAt region n s, n + s.length) := by
  rw [readAux]
  by_cases h0 : region.length - n = 0
  · rw [if_pos h0, if_pos (by omega)]
  · rw [if_neg h0]
    by_cases hm : min (region.length - n) s.length = 0
    · have hs : s.length = 0 := by
        rcases Nat.min_eq_zero_iff.mp hm with h | h
        · exact absurd h h0
        · exact h
      have hnil : s = [] := List.eq_nil_of_length_eq_zero hs
      simp only [dif_pos hm]
      rw [if_neg (by omega), hnil, writeAt_nil]
      simp
    · simp only [dif_neg hm]
      by_cases hlt : s.length < region.length - n
      · have hm2 : min (region.length - n) s.length = s.length :=
          Nat.min_eq_right (by omega)
        rw [hm2, List.take_length, List.drop_length, readAux]
        have hlen : (writeAt region n s).length = region.length :=
          length_writeAt _ _ _ (by omega)
        rw [hlen]
        rw [if_neg (by omega : ¬(region.length - (n + s.length) = 0))]
        rw [if_neg (by omega : ¬(region.length ≤ n + s.length))]
        simp
      · have hm2 : min (region.length - n) s.length = region.length - n :=
          Nat.min_eq_left (by omega)
        rw [hm2, readAux]
        have hlen : (writeAt region n (s.take (region.length - n))).length = region.length := by
          apply length_writeAt
          simp only [List.length_take]
          omega
        rw [hlen]
        rw [if_pos (by omega : region.length - (n + (region.length - n)) = 0)]
        rw [if_pos (by omega : region.length ≤ n + s.length)]

/-- Closed form of one optional-source step: an absent source contributes
nothing; a present one either overflows (its content meets or exceeds the
space from the cursor to the end of the buffer) or is written at the cursor,
contributing `content.length - 1` to the count. -/
lemma readOpt_eq (buffer : List Nat) (pos : Nat) (src : Option (List Nat)) :
    readOpt buffer pos src =
      match src with
      | none => .ok (buffer, 0)
      | some s =>
        if buffer.length ≤ pos + s.length then .error .writeZero
        else .ok (writeAt buffer pos s, s.length - 1) := by
  cases src with
  | none => rfl
  | some s =>
    show (match read (buffer.drop pos) s with
      | Except.error e => Except.error e
      | Except.ok (region, n) => Except.ok (buffer.take pos ++ region, n)) =
      (if buffer.length ≤ pos + s.length then Except.error ErrorKind.writeZero
       else Except.ok (writeAt buffer pos s, s.length - 1))
    unfold read
    rw [readAux_eq]
    by_cases h : buffer.length ≤ pos + s.length
    · rw [if_pos (by simp only [List.length_drop]; omega), if_pos h]
    · rw [if_neg (by simp only [List.length_drop]; omega), if_neg h]
      show Except.ok (buffer.take pos ++ writeAt (buffer.drop pos) 0 s, 0 + s.length - 1) =
        Except.ok (writeAt buffer pos s, s.length - 1)
      unfold writeAt
      simp only [List.take_zero, List.nil_append, Nat.zero_add, List.drop_drop,
        List.append_assoc]


/-- The buffer after processing one optional source at `pos` (no-op when
absent). -/
def writeOpt (l : List Nat) (pos : Nat) : Option (List Nat) → List Nat
  | none => l
  | some s => writeAt l pos s

/-- The buffer a successful `from_streams` run ends with: the zeroed buffer
with the three source contents written back to back at the payload cursors. -/
def finalBuf (sv sn sr : Option (List Nat)) : List Nat :=
  writeOpt (writeOpt (writeOpt (List.replicate BUFSZ 0) 0 sv) (srcCount sv) sn)
    (srcCount sv + srcCount sn) sr

/-- Success condition of `from_streams` on byte-list streams: each present
source's whole content (payload plus terminator) must be strictly smaller
than the buffer space from its cursor to the end, so that end-of-stream can
still be observed. -/
def fits (sv sn sr : Option (List Nat)) : Prop :=
  (∀ s, sv = some s → s.length < BUFSZ) ∧
  (∀ s, sn = some s → srcCount sv + s.length < BUFSZ) ∧
  (∀ s, sr = some s → srcCount sv + srcCount sn + s.length < BUFSZ)

/-- The accessor result a source produces on success: absent, or present with
zero usable payload, gives `none`; otherwise the content with its last byte
(the terminator) dropped. -/
def fieldOf : Option (List Nat) → Option (List Nat)
  | none => none
  | some s => if s.length - 1 = 0 then none else some (s.take (s.length - 1))

lemma srcCount_none : srcCount none = 0 := rfl

lemma srcCount_some (s : List Nat) : srcCount (some s) = s.length - 1 := rfl

lemma counts_lt (sv sn sr : Option (List Nat)) (h : fits sv sn sr) :
    srcCount sv + srcCount sn + srcCount sr < BUFSZ := by
  obtain ⟨h1, h2, h3⟩ := h
  have hv : srcCount sv < BUFSZ := by
    cases sv with
    | none => simp [srcCount_none, BUFSZ]
    | some s =>
      have := h1 s rfl
      rw [srcCount_some]
      omega
  have hn : srcCount sv + srcCount sn < BUFSZ := by
    cases sn with
    | none => simpa [srcCount_none] using hv
    | some t =>
      have := h2 t rfl
      rw [srcCount_some]
      omega
  cases sr with
  | none => simpa [srcCount_none] using hn
  | some u =>
    have := h3 u rfl
    rw [srcCount_some]
    omega

lemma length_writeOpt (l : List Nat) (pos : Nat) (src : Option (List Nat))
    (h : ∀ s, src = some s → pos + s.length ≤ l.length) :
    (writeOpt l pos src).length = l.length := by
  cases src with
  | none => rfl
  | some s => exact length_writeAt _ _ _ (h s rfl)

lemma take_writeOpt (l : List Nat) (src : Option (List Nat)) (pos k : Nat) (hk : k ≤ pos)
    (hp : pos ≤ l.length) : (writeOpt l pos src).take k = l.take k := by
  cases src with
  | none => rfl
  | some s => exact take_writeAt _ _ _ _ hk hp

lemma take_writeAt_zero (l s : List Nat) (k : Nat) (hk : k ≤ s.length) :
    (writeAt l 0 s).take k = s.take k := by
  have h := middle_writeAt l s 0 k (Nat.zero_le _) hk
  simpa using h

/-- If one source does not fit, the whole chain errors; this readies the step
rewrites for the master lemmas. -/
lemma readOpt_ok (buffer : List Nat) (pos : Nat) (src : Option (List Nat))
    (h : ∀ s, src = some s → pos + s.length < buffer.length) :
    readOpt buffer pos src = .ok (writeOpt buffer pos src, srcCount src) := by
  cases src with
  | none => rfl
  | some s =>
    rw [readOpt_eq]
    have hlt := h s rfl
    show (if buffer.length ≤ pos + s.length then Except.error ErrorKind.writeZero
      else Except.ok (writeAt buffer pos s, s.length - 1)) = _
    rw [if_neg (by omega)]
    rfl

lemma ok_bind {α β : Type} (a : α) (f : α → Except ErrorKind β) :
    (Except.ok a >>= f) = f a := rfl

lemma error_bind {α β : Type} (e : ErrorKind) (f : α → Except ErrorKind β) :
    ((Except.error e : Except ErrorKind α) >>= f) = Except.error e := rfl

/-- Master success lemma: under `fits`, `from_streams` succeeds with the
written-back buffer and the three cumulative payload counts as offsets (the
`as u8` casts do not truncate, by `counts_lt`). -/
lemma from_streams_ok (sv sn sr : Option (List Nat)) (h : fits sv sn sr) :
    from_streams sv sn sr = .ok {
      buffer := finalBuf sv sn sr
      vendor_end := srcCount sv
      name_end := srcCount sv + srcCount sn
      version_end := srcCount sv + srcCount sn + srcCount sr } := by
  obtain ⟨h1, h2, h3⟩ := h
  have htot := counts_lt sv sn sr ⟨h1, h2, h3⟩
  have hb0 : (List.replicate BUFSZ 0 : List Nat).length = BUFSZ := by simp
  have s1 := readOpt_ok (List.replicate BUFSZ 0) 0 sv
    (by intro s hs; rw [hb0]; have := h1 s hs; omega)
  have hb1 : (writeOpt (List.replicate BUFSZ 0) 0 sv).length = BUFSZ := by
    rw [length_writeOpt, hb0]
    intro s hs; rw [hb0]; have := h1 s hs; omega
  have s2 := readOpt_ok (writeOpt (List.replicate BUFSZ 0) 0 sv) (srcCount sv) sn
    (by intro t ht; rw [hb1]; have := h2 t ht; omega)
  have hb2 : (writeOpt (writeOpt (List.replicate BUFSZ 0) 0 sv) (srcCount sv) sn).length
      = BUFSZ := by
    rw [length_writeOpt, hb1]
    intro t ht; rw [hb1]; have := h2 t ht; omega
  have s3 := readOpt_ok (writeOpt (writeOpt (List.replicate BUFSZ 0) 0 sv) (srcCount sv) sn)
    (srcCount sv + srcCount sn) sr
    (by intro u hu; rw [hb2]; have := h3 u hu; omega)
  unfold from_streams
  simp only [s1, ok_bind, s2, s3]
  unfold finalBuf
  congr 1
  have e1 : srcCount sv % 256 = srcCount sv := Nat.mod_eq_of_lt (by unfold BUFSZ at htot; omega)
  have e2 : (srcCount sv + srcCount sn) % 256 = srcCount sv + srcCount sn :=
    Nat.mod_eq_of_lt (by unfold BUFSZ at htot; omega)
  have e3 : (srcCount sv + srcCount sn + srcCount sr) % 256 =
      srcCount sv + srcCount sn + srcCount sr :=
    Nat.mod_eq_of_lt (by unfold BUFSZ at htot; omega)
  rw [e1, e2, e3]

lemma readOpt_err (buffer : List Nat) (pos : Nat) (s : List Nat)
    (h : buffer.length ≤ pos + s.length) :
    readOpt buffer pos (some s) = .error .writeZero := by
  rw [readOpt_eq]
  show (if buffer.length ≤ pos + s.length then Except.error ErrorKind.writeZero
    else Except.ok (writeAt buffer pos s, s.length - 1)) = _
  rw [if_pos h]

/-- Master failure lemma: when some step's content does not fit, the run stops
with the capacity error. -/
lemma from_streams_err (sv sn sr : Option (List Nat)) (h : ¬ fits sv sn sr) :
    from_streams sv sn sr = .error .writeZero := by
  have hb0 : (List.replicate BUFSZ 0 : List Nat).length = BUFSZ := by simp
  by_cases hv : ∀ s, sv = some s → s.length < BUFSZ
  · have s1 := readOpt_ok (List.replicate BUFSZ 0) 0 sv
      (by intro s hs; rw [hb0]; have := hv s hs; omega)
    have hb1 : (writeOpt (List.replicate BUFSZ 0) 0 sv).length = BUFSZ := by
      rw [length_writeOpt, hb0]
      intro s hs; rw [hb0]; have := hv s hs; omega
    by_cases hn : ∀ t, sn = some t → srcCount sv + t.length < BUFSZ
    · have hr : ¬ ∀ u, sr = some u → srcCount sv + srcCount sn + u.length < BUFSZ := by
        intro hr
        exact h ⟨hv, hn, hr⟩
      push_neg at hr
      obtain ⟨u, hu, hlen⟩ := hr
      subst hu
      have s2 := readOpt_ok (writeOpt (List.replicate BUFSZ 0) 0 sv) (srcCount sv) sn
        (by intro t ht; rw [hb1]; have := hn t ht; omega)
      have hb2 : (writeOpt (writeOpt (List.replicate BUFSZ 0) 0 sv) (srcCount sv) sn).length
          = BUFSZ := by
        rw [length_writeOpt, hb1]
        intro t ht; rw [hb1]; have := hn t ht; omega
      have s3 := readOpt_err (writeOpt (writeOpt (List.replicate BUFSZ 0) 0 sv) (srcCount sv) sn)
        (srcCount sv + srcCount sn) u (by rw [hb2]; omega)
      unfold from_streams
      simp only [s1, ok_bind, s2, s3, error_bind]
    · push_neg at hn
      obtain ⟨t, ht, hlen⟩ := hn
      subst ht
      have s2 := readOpt_err (writeOpt (List.replicate BUFSZ 0) 0 sv) (srcCount sv) t
        (by rw [hb1]; omega)
      unfold from_streams
      simp only [s1, ok_bind, s2, error_bind]
  · push_neg at hv
    obtain ⟨s, hs, hlen⟩ := hv
    subst hs
    have s1 := readOpt_err (List.replicate BUFSZ 0) 0 s (by rw [hb0]; omega)
    unfold from_streams
    simp only [s1, error_bind]

lemma fieldOf_none : fieldOf none = none := rfl

lemma fieldOf_some (s : List Nat) :
    fieldOf (some s) = if s.length - 1 = 0 then none else some (s.take (s.length - 1)) := rfl

lemma writeOpt_some (l : List Nat) (pos : Nat) (s : List Nat) :
    writeOpt l pos (some s) = writeAt l pos s := rfl

/-- Master observable-behaviour lemma: on success the three accessors return
exactly the terminator-trimmed payloads (empty ones reported absent). -/
lemma obs_ok (sv sn sr : Option (List Nat)) (h : fits sv sn sr) :
    obs (from_streams sv sn sr) = .ok (fieldOf sv, fieldOf sn, fieldOf sr) := by
  obtain ⟨h1, h2, h3⟩ := h
  have htot := counts_lt sv sn sr ⟨h1, h2, h3⟩
  have hBUF : BUFSZ = 255 := rfl
  have hb0 : (List.replicate BUFSZ 0 : List Nat).length = BUFSZ := by simp
  have hb1 : (writeOpt (List.replicate BUFSZ 0) 0 sv).length = BUFSZ := by
    rw [length_writeOpt, hb0]
    intro s hs; rw [hb0]; have := h1 s hs; omega
  have hb2 : (writeOpt (writeOpt (List.replicate BUFSZ 0) 0 sv) (srcCount sv) sn).length
      = BUFSZ := by
    rw [length_writeOpt, hb1]
    intro t ht; rw [hb1]; have := h2 t ht; omega
  have hvend : BoardId.vendor ⟨finalBuf sv sn sr, srcCount sv, srcCount sv + srcCount sn,
      srcCount sv + srcCount sn + srcCount sr⟩ = fieldOf sv := by
    simp only [BoardId.vendor]
    cases sv with
    | none => simp [srcCount_none, fieldOf_none]
    | some s =>
      simp only [srcCount_some] at htot hb2 ⊢
      rw [fieldOf_some]
      by_cases hc : s.length - 1 = 0
      · rw [if_pos hc, if_neg (by omega)]
      · rw [if_neg hc, if_pos (by omega)]
        unfold finalBuf
        simp only [srcCount_some]
        rw [take_writeOpt _ sr _ _ (by omega) (by rw [hb2]; omega),
          take_writeOpt _ sn _ _ (by omega) (by rw [hb1]; omega),
          writeOpt_some, take_writeAt_zero _ _ _ (by omega)]
  have hname : BoardId.name ⟨finalBuf sv sn sr, srcCount sv, srcCount sv + srcCount sn,
      srcCount sv + srcCount sn + srcCount sr⟩ = fieldOf sn := by
    simp only [BoardId.name]
    cases sn with
    | none => simp [srcCount_none, fieldOf_none]
    | some t =>
      simp only [srcCount_some] at htot ⊢
      rw [fieldOf_some]
      by_cases hc : t.length - 1 = 0
      · rw [if_pos hc, if_neg (by omega)]
      · rw [if_neg hc, if_pos (by omega)]
        unfold finalBuf
        simp only [srcCount_some]
        rw [take_writeOpt _ sr _ _ (by omega) (by rw [hb2]; omega),
          writeOpt_some, middle_writeAt _ _ _ _ (by rw [hb1]; omega) (by omega)]
  have hvers : BoardId.version ⟨finalBuf sv sn sr, srcCount sv, srcCount sv + srcCount sn,
      srcCount sv + srcCount sn + srcCount sr⟩ = fieldOf sr := by
    simp only [BoardId.version]
    cases sr with
    | none => simp [srcCount_none, fieldOf_none]
    | some u =>
      simp only [srcCount_some] at htot ⊢
      rw [fieldOf_some]
      by_cases hc : u.length - 1 = 0
      · rw [if_pos hc, if_neg (by omega)]
      · rw [if_neg hc, if_pos (by omega)]
        unfold finalBuf
        rw [writeOpt_some, middle_writeAt _ _ _ _ (by rw [hb2]; omega) (by omega)]
  rw [from_streams_ok sv sn sr ⟨h1, h2, h3⟩]
  unfold obs
  simp only [Except.map]
  rw [hvend, hname, hvers]

lemma obs_eq_ok (e : Except ErrorKind BoardId) (x y z : Option (List Nat)) :
    obs e = .ok (x, y, z) ↔ ∃ b, e = .ok b ∧ b.vendor = x ∧ b.name = y ∧ b.version = z := by
  cases e with
  | error err => simp [obs, Except.map]
  | ok b => simp [obs, Except.map, Prod.ext_iff]

lemma fieldOf_payload (p : List Nat) (hp : p ≠ []) (c : Nat) :
    fieldOf (some (p ++ [c])) = some p := by
  have hlen : (p ++ [c]).length - 1 = p.length := by simp
  rw [fieldOf_some, hlen, if_neg (by have := List.length_pos.mpr hp; omega), List.take_left]

/-- C1: for non-empty payloads with combined length at most `BUFSZ - 2`, feeding
the three payloads each followed by one terminator byte constructs successfully
and the three accessors return the payloads byte-for-byte. -/
theorem C1_roundtrip (p q r : List Nat) (hp : p ≠ []) (hq : q ≠ []) (hr : r ≠ [])
    (hlen : p.length + q.length + r.length ≤ BUFSZ - 2) :
    ∃ b, from_streams (some (p ++ [10])) (some (q ++ [10])) (some (r ++ [10])) = .ok b ∧
      b.vendor = some p ∧ b.name = some q ∧ b.version = some r := by
  have hB : BUFSZ = 255 := rfl
  rw [hB] at hlen
  have hfits : fits (some (p ++ [10])) (some (q ++ [10])) (some (r ++ [10])) := by
    refine ⟨fun s hs => ?_, fun s hs => ?_, fun s hs => ?_⟩ <;>
      injection hs with hs <;> subst hs <;>
      simp only [srcCount_some, List.length_append, List.length_singleton, hB] <;> omega
  have hobs := obs_ok _ _ _ hfits
  rw [fieldOf_payload p hp, fieldOf_payload q hq, fieldOf_payload r hr] at hobs
  exact (obs_eq_ok _ _ _ _).mp hobs

/-- Witness for C1 at concrete single-byte payloads. -/
theorem C1_roundtrip_witness :
    ∃ b, from_streams (some [86, 10]) (some [78, 10]) (some [82, 10]) = .ok b ∧
      b.vendor = some [86] ∧ b.name = some [78] ∧ b.version = some [82] :=
  C1_roundtrip [86] [78] [82] (by simp) (by simp) (by simp) (by simp [BUFSZ])

/-- C2: on every successfully constructed value the accessor presence rules
hold exactly: vendor present iff `vendor_end > 0` with slice
`buffer[0..vendor_end]`, name present iff `vendor_end ≠ name_end` with slice
`buffer[vendor_end..name_end]`, version present iff `name_end < version_end`
with slice `buffer[name_end..version_end]`. -/
theorem C2_accessor_rules (sv sn sr : Option (List Nat)) (b : BoardId)
    (h : from_streams sv sn sr = .ok b) :
    (∀ x, b.vendor = some x ↔ 0 < b.vendor_end ∧ x = b.buffer.take b.vendor_end) ∧
    (b.vendor = none ↔ b.vendor_end = 0) ∧
    (∀ x, b.name = some x ↔
      b.vendor_end ≠ b.name_end ∧ x = (b.buffer.take b.name_end).drop b.vendor_end) ∧
    (b.name = none ↔ b.vendor_end = b.name_end) ∧
    (∀ x, b.version = some x ↔
      b.name_end < b.version_end ∧ x = (b.buffer.take b.version_end).drop b.name_end) ∧
    (b.version = none ↔ ¬ b.name_end < b.version_end) := by
  refine ⟨fun x => ?_, ?_, fun x => ?_, ?_, fun x => ?_, ?_⟩
  · rw [BoardId.vendor]
    split_ifs with hc
    · simp [hc, eq_comm]
    · simp [hc]
  · rw [BoardId.vendor]
    split_ifs with hc
    · constructor
      · intro hx; cases hx
      · intro he; exact absurd he (by omega)
    · simp
      omega
  · rw [BoardId.name]
    split_ifs with hc
    · simp [hc, eq_comm]
    · simp [hc]
  · rw [BoardId.name]
    split_ifs with hc
    · constructor
      · intro hx; cases hx
      · intro he; exact absurd he hc
    · simp
      omega
  · rw [BoardId.version]
    split_ifs with hc
    · simp [hc, eq_comm]
    · simp [hc]
  · rw [BoardId.version]
    split_ifs with hc
    · constructor
      · intro hx; cases hx
      · intro hn; exact absurd hc hn
    · simp [hc]

/-- Witness for C2 at the all-absent construction. -/
theorem C2_accessor_rules_witness :
    (⟨List.replicate 255 0, 0, 0, 0⟩ : BoardId).vendor = none ↔
      (⟨List.replicate 255 0, 0, 0, 0⟩ : BoardId).vendor_end = 0 :=
  (C2_accessor_rules none none none ⟨List.replicate 255 0, 0, 0, 0⟩ rfl).2.1

/-- C3: the rendered line follows the display cascade exactly: escaped vendor
plus a space when vendor is present; then the escaped name, or the literal
word "motherboard" when only vendor was written, or the whole line is exactly
"undetected motherboard"; a space and the escaped version are appended only
when a genuine name was emitted and version is present. -/
theorem C3_display_cascade (b : BoardId) :
    b.display =
      match b.vendor, b.name with
      | some v, some n =>
        escapeAscii v ++ " " ++ escapeAscii n ++
          (match b.version with
           | some u => " " ++ escapeAscii u
           | none => "")
      | some v, none => escapeAscii v ++ " " ++ "motherboard"
      | none, some n =>
        escapeAscii n ++
          (match b.version with
           | some u => " " ++ escapeAscii u
           | none => "")
      | none, none => "undetected motherboard" := by
  unfold BoardId.display
  cases hv : b.vendor with
  | none =>
    cases hn : b.name with
    | none => simp
    | some n =>
      cases hu : b.version with
      | none => simp [String.empty_append]
      | some u => simp [String.empty_append, String.append_assoc]
  | some v =>
    cases hn : b.name with
    | none => simp [String.append_assoc]
    | some u =>
      cases hu : b.version with
      | none => simp [String.append_assoc]
      | some u => simp [String.append_assoc]

lemma replicate_ne_nil (n a : Nat) (h : n ≠ 0) : List.replicate n a ≠ [] := by
  intro he
  have hlen := congrArg List.length he
  rw [List.length_replicate] at hlen
  exact h (by simpa using hlen)

/-- C4 counterexample: a single name payload of length `BUFSZ - 1 = 254`
(capacity minus one), followed by one terminator byte, does NOT construct
successfully — it fails with the capacity error, refuting the claim that a
payload of length capacity-minus-one succeeds. -/
theorem C4_counterexample :
    from_streams none (some (List.replicate 254 65 ++ [10])) none = .error .writeZero := by
  have hB : BUFSZ = 255 := rfl
  apply from_streams_err
  rintro ⟨-, h2, -⟩
  have h := h2 _ rfl
  rw [srcCount_none] at h
  simp only [List.length_append, List.length_replicate, List.length_singleton, hB] at h
  omega

/-- C4 amended: the boundary payload length is capacity-minus-two, not
capacity-minus-one: a single name payload of length `BUFSZ - 2` followed by one
terminator constructs successfully and round-trips exactly, while a payload of
length `BUFSZ - 1` fails with the capacity-exceeded error. -/
theorem C4_boundary (p q : List Nat) (hp : p.length = BUFSZ - 2) (hq : q.length = BUFSZ - 1) :
    obs (from_streams none (some (p ++ [10])) none) = .ok (none, some p, none) ∧
    from_streams none (some (q ++ [10])) none = .error .writeZero := by
  have hB : BUFSZ = 255 := rfl
  constructor
  · have hfits : fits none (some (p ++ [10])) none := by
      refine ⟨fun s hs => (nomatch hs), fun s hs => ?_, fun s hs => (nomatch hs)⟩
      injection hs with hs
      subst hs
      rw [srcCount_none]
      simp only [List.length_append, List.length_singleton, hB]
      omega
    rw [obs_ok _ _ _ hfits, fieldOf_none,
      fieldOf_payload p (by have := hp; intro hnil; subst hnil; simp [hB] at this) 10]
  · apply from_streams_err
    rintro ⟨-, h2, -⟩
    have h := h2 _ rfl
    rw [srcCount_none] at h
    simp only [List.length_append, List.length_singleton, hB, hq] at h
    omega

/-- Witness for C4's amended boundary at concrete payloads. -/
theorem C4_boundary_witness :
    obs (from_streams none (some (List.replicate 253 65 ++ [10])) none) =
      .ok (none, some (List.replicate 253 65), none) ∧
    from_streams none (some (List.replicate 254 66 ++ [10])) none = .error .writeZero :=
  C4_boundary (List.replicate 253 65) (List.replicate 254 66) (by rw [List.length_replicate]; decide) (by rw [List.length_replicate]; decide)

/-- C5 counterexample: a combined input of 256 bytes (payloads plus their
terminator bytes) exceeds the 255-byte buffer, yet construction succeeds,
because the trimmed terminator of each non-final source is overwritten by the
next source — refuting "combined input beyond capacity always fails". -/
theorem C5_counterexample :
    BUFSZ < ([65, 10].length + [66, 10].length + (List.replicate 251 67 ++ [10]).length) ∧
    obs (from_streams (some [65, 10]) (some [66, 10]) (some (List.replicate 251 67 ++ [10]))) =
      .ok (some [65], some [66], some (List.replicate 251 67)) := by
  have hB : BUFSZ = 255 := rfl
  constructor
  · simp only [List.length_cons, List.length_nil, List.length_append, List.length_replicate,
      List.length_singleton, hB]
    omega
  · have hfits : fits (some [65, 10]) (some [66, 10]) (some (List.replicate 251 67 ++ [10])) := by
      refine ⟨fun s hs => ?_, fun s hs => ?_, fun s hs => ?_⟩ <;>
        injection hs with hs <;> subst hs <;>
        simp only [srcCount_some, List.length_cons, List.length_nil, List.length_append,
          List.length_replicate, List.length_singleton, hB] <;>
        omega
    rw [obs_ok _ _ _ hfits]
    have e1 : ([65, 10] : List Nat) = [65] ++ [10] := rfl
    have e2 : ([66, 10] : List Nat) = [66] ++ [10] := rfl
    rw [e1, e2, fieldOf_payload [65] (by simp) 10, fieldOf_payload [66] (by simp) 10,
      fieldOf_payload (List.replicate 251 67) (replicate_ne_nil 251 67 (by omega)) 10]

/-- C5 amended: construction fails (with the distinct capacity error, never a
truncated value) exactly when some source's content meets or exceeds the space
remaining at its turn — the `fits` condition; combined input may exceed the
buffer size by the number of overwritten terminators and still succeed. On
every failure the result carries no Identity, and the only error the packing
itself produces is `writeZero`. -/
theorem C5_capacity_error (sv sn sr : Option (List Nat)) :
    ((∃ b, from_streams sv sn sr = .ok b) ↔ fits sv sn sr) ∧
    (∀ e, from_streams sv sn sr = .error e → e = .writeZero) := by
  constructor
  · constructor
    · rintro ⟨b, hb⟩
      by_contra hf
      rw [from_streams_err _ _ _ hf] at hb
      cases hb
    · intro hf
      exact ⟨_, from_streams_ok _ _ _ hf⟩
  · intro e he
    by_cases hf : fits sv sn sr
    · rw [from_streams_ok _ _ _ hf] at he
    · rw [from_streams_err _ _ _ hf] at he

/-- Witness for C5's amended characterisation: the all-absent input fits and
constructs. -/
theorem C5_capacity_error_witness : ∃ b, from_streams none none none = Except.ok b :=
  (C5_capacity_error none none none).1.mpr
    ⟨fun s hs => (nomatch hs), fun s hs => (nomatch hs), fun s hs => (nomatch hs)⟩

/-- C10: the implicit effective capacity is `BUFSZ - 2`: a single name payload
of `BUFSZ - 2` bytes (content `BUFSZ - 1` bytes with the terminator) is the
largest that constructs, and it round-trips exactly; content of `BUFSZ` bytes
fails with the capacity error, since one buffer byte holds the trailing
terminator and one more must stay free to observe end-of-stream. -/
theorem C10_effective_capacity (p q : List Nat) (hp : p.length = BUFSZ - 2)
    (hq : q.length = BUFSZ - 1) :
    (∃ b, from_streams none (some (p ++ [10])) none = .ok b ∧
      b.vendor = none ∧ b.name = some p ∧ b.version = none) ∧
    from_streams none (some (q ++ [10])) none = .error .writeZero := by
  have hB : BUFSZ = 255 := rfl
  constructor
  · have hfits : fits none (some (p ++ [10])) none := by
      refine ⟨fun s hs => (nomatch hs), fun s hs => ?_, fun s hs => (nomatch hs)⟩
      injection hs with hs
      subst hs
      rw [srcCount_none]
      simp only [List.length_append, List.length_singleton, hB]
      omega
    have hobs := obs_ok _ _ _ hfits
    rw [fieldOf_none, fieldOf_payload p (by intro hnil; subst hnil; simp [hB] at hp) 10] at hobs
    exact (obs_eq_ok _ _ _ _).mp hobs
  · apply from_streams_err
    rintro ⟨-, h2, -⟩
    have h := h2 _ rfl
    rw [srcCount_none] at h
    simp only [List.length_append, List.length_singleton, hB, hq] at h
    omega

/-- Witness for C10 at concrete payloads of lengths 253 and 254. -/
theorem C10_effective_capacity_witness :
    (∃ b, from_streams none (some (List.replicate 253 78 ++ [10])) none = .ok b ∧
      b.vendor = none ∧ b.name = some (List.replicate 253 78) ∧ b.version = none) ∧
    from_streams none (some (List.replicate 254 78 ++ [10])) none = .error .writeZero :=
  C10_effective_capacity (List.replicate 253 78) (List.replicate 254 78)
    (by rw [List.length_replicate]; decide) (by rw [List.length_replicate]; decide)

/-- C6: every successful construction yields monotonically non-decreasing
offsets bounded by the capacity; in particular the `as u8` conversions of the
running totals never wrap. -/
theorem C6_monotonic_offsets (sv sn sr : Option (List Nat)) (b : BoardId)
    (h : from_streams sv sn sr = .ok b) :
    b.vendor_end ≤ b.name_end ∧ b.name_end ≤ b.version_end ∧ b.version_end ≤ BUFSZ := by
  by_cases hf : fits sv sn sr
  · have htot := counts_lt sv sn sr hf
    rw [from_streams_ok _ _ _ hf] at h
    injection h with h
    subst h
    refine ⟨?_, ?_, ?_⟩
    · show srcCount sv ≤ srcCount sv + srcCount sn
      omega
    · show srcCount sv + srcCount sn ≤ srcCount sv + srcCount sn + srcCount sr
      omega
    · show srcCount sv + srcCount sn + srcCount sr ≤ BUFSZ
      omega
  · rw [from_streams_err _ _ _ hf] at h
    cases h

/-- Witness for C6 at the all-absent construction. -/
theorem C6_monotonic_offsets_witness :
    (⟨List.replicate 255 0, 0, 0, 0⟩ : BoardId).vendor_end ≤
      (⟨List.replicate 255 0, 0, 0, 0⟩ : BoardId).name_end ∧
    (⟨List.replicate 255 0, 0, 0, 0⟩ : BoardId).name_end ≤
      (⟨List.replicate 255 0, 0, 0, 0⟩ : BoardId).version_end ∧
    (⟨List.replicate 255 0, 0, 0, 0⟩ : BoardId).version_end ≤ BUFSZ :=
  C6_monotonic_offsets none none none ⟨List.replicate 255 0, 0, 0, 0⟩ rfl

lemma small_srcCount (s : List Nat) (hs : s.length ≤ 1) : srcCount (some s) = 0 := by
  rw [srcCount_some]
  omega

lemma small_fieldOf (s : List Nat) (hs : s.length ≤ 1) : fieldOf (some s) = none := by
  rw [fieldOf_some, if_pos (by omega)]

lemma srcCount_le_of_fst (o : Option (List Nat)) (h : ∀ s, o = some s → s.length < BUFSZ) :
    srcCount o ≤ BUFSZ - 2 := by
  have hB : BUFSZ = 255 := rfl
  cases o with
  | none => rw [srcCount_none]; omega
  | some s =>
    have := h s rfl
    rw [srcCount_some]
    omega

lemma srcCount_le_of_snd (a sn : Option (List Nat))
    (h1 : ∀ s, a = some s → s.length < BUFSZ)
    (h2 : ∀ t, sn = some t → srcCount a + t.length < BUFSZ) :
    srcCount a + srcCount sn ≤ BUFSZ - 2 := by
  have ha := srcCount_le_of_fst a h1
  cases sn with
  | none => rw [srcCount_none]; omega
  | some t =>
    have := h2 t rfl
    rw [srcCount_some]
    omega

lemma fits_small_vendor (s : List Nat) (hs : s.length ≤ 1) (a c : Option (List Nat)) :
    fits (some s) a c ↔ fits none a c := by
  unfold fits
  rw [small_srcCount s hs, srcCount_none]
  constructor
  · rintro ⟨-, h2, h3⟩
    exact ⟨fun x hx => (nomatch hx), h2, h3⟩
  · rintro ⟨-, h2, h3⟩
    refine ⟨fun x hx => ?_, h2, h3⟩
    injection hx with hx
    subst hx
    show s.length < BUFSZ
    have hB : BUFSZ = 255 := rfl
    omega

lemma fits_small_name (t : List Nat) (ht : t.length ≤ 1) (a c : Option (List Nat)) :
    fits a (some t) c ↔ fits a none c := by
  unfold fits
  rw [small_srcCount t ht, srcCount_none]
  constructor
  · rintro ⟨h1, -, h3⟩
    exact ⟨h1, fun x hx => (nomatch hx), h3⟩
  · rintro ⟨h1, -, h3⟩
    refine ⟨h1, fun x hx => ?_, h3⟩
    injection hx with hx
    subst hx
    have := srcCount_le_of_fst a h1
    have hB : BUFSZ = 255 := rfl
    omega

lemma fits_small_version (u : List Nat) (hu : u.length ≤ 1) (a c : Option (List Nat)) :
    fits a c (some u) ↔ fits a c none := by
  unfold fits
  constructor
  · rintro ⟨h1, h2, -⟩
    exact ⟨h1, h2, fun x hx => (nomatch hx)⟩
  · rintro ⟨h1, h2, -⟩
    refine ⟨h1, h2, fun x hx => ?_⟩
    injection hx with hx
    subst hx
    have := srcCount_le_of_snd a c h1 h2
    have hB : BUFSZ = 255 := rfl
    omega

lemma obs_small_vendor (s : List Nat) (hs : s.length ≤ 1) (a c : Option (List Nat)) :
    obs (from_streams (some s) a c) = obs (from_streams none a c) := by
  by_cases hf : fits none a c
  · rw [obs_ok _ _ _ ((fits_small_vendor s hs a c).mpr hf), obs_ok _ _ _ hf,
      small_fieldOf s hs, fieldOf_none]
  · rw [from_streams_err _ _ _ (fun hh => hf ((fits_small_vendor s hs a c).mp hh)),
      from_streams_err _ _ _ hf]

lemma obs_small_name (t : List Nat) (ht : t.length ≤ 1) (a c : Option (List Nat)) :
    obs (from_streams a (some t) c) = obs (from_streams a none c) := by
  by_cases hf : fits a none c
  · rw [obs_ok _ _ _ ((fits_small_name t ht a c).mpr hf), obs_ok _ _ _ hf,
      small_fieldOf t ht, fieldOf_none]
  · rw [from_streams_err _ _ _ (fun hh => hf ((fits_small_name t ht a c).mp hh)),
      from_streams_err _ _ _ hf]

lemma obs_small_version (u : List Nat) (hu : u.length ≤ 1) (a c : Option (List Nat)) :
    obs (from_streams a c (some u)) = obs (from_streams a c none) := by
  by_cases hf : fits a c none
  · rw [obs_ok _ _ _ ((fits_small_version u hu a c).mpr hf), obs_ok _ _ _ hf,
      small_fieldOf u hu, fieldOf_none]
  · rw [from_streams_err _ _ _ (fun hh => hf ((fits_small_version u hu a c).mp hh)),
      from_streams_err _ _ _ hf]

/-- C7: a present source with zero usable payload (no bytes at all, or a lone
terminator byte) is observationally identical to an absent source, and in all
such cases the corresponding accessor reports absent. -/
theorem C7_absent_empty_equiv (a c : Option (List Nat)) :
    (obs (from_streams (some []) a c) = obs (from_streams none a c)) ∧
    (obs (from_streams (some [10]) a c) = obs (from_streams none a c)) ∧
    (obs (from_streams a (some []) c) = obs (from_streams a none c)) ∧
    (obs (from_streams a (some [10]) c) = obs (from_streams a none c)) ∧
    (obs (from_streams a c (some [])) = obs (from_streams a c none)) ∧
    (obs (from_streams a c (some [10])) = obs (from_streams a c none)) ∧
    (∀ b, from_streams (some [10]) a c = .ok b → b.vendor = none) ∧
    (∀ b, from_streams a (some [10]) c = .ok b → b.name = none) ∧
    (∀ b, from_streams a c (some [10]) = .ok b → b.version = none) := by
  refine ⟨obs_small_vendor [] (by simp) a c, obs_small_vendor [10] (by simp) a c,
    obs_small_name [] (by simp) a c, obs_small_name [10] (by simp) a c,
    obs_small_version [] (by simp) a c, obs_small_version [10] (by simp) a c, ?_, ?_, ?_⟩
  · intro b hb
    by_cases hf : fits (some [10]) a c
    · obtain ⟨b2, hb2, hv, -, -⟩ := (obs_eq_ok _ _ _ _).mp (obs_ok _ _ _ hf)
      rw [hb] at hb2
      injection hb2 with e
      subst e
      rw [hv, small_fieldOf [10] (by simp)]
    · rw [from_streams_err _ _ _ hf] at hb
      cases hb
  · intro b hb
    by_cases hf : fits a (some [10]) c
    · obtain ⟨b2, hb2, -, hn, -⟩ := (obs_eq_ok _ _ _ _).mp (obs_ok _ _ _ hf)
      rw [hb] at hb2
      injection hb2 with e
      subst e
      rw [hn, small_fieldOf [10] (by simp)]
    · rw [from_streams_err _ _ _ hf] at hb
      cases hb
  · intro b hb
    by_cases hf : fits a c (some [10])
    · obtain ⟨b2, hb2, -, -, hr⟩ := (obs_eq_ok _ _ _ _).mp (obs_ok _ _ _ hf)
      rw [hb] at hb2
      injection hb2 with e
      subst e
      rw [hr, small_fieldOf [10] (by simp)]
    · rw [from_streams_err _ _ _ hf] at hb
      cases hb

/-- Witness for C7 at concrete inputs: the empty-stream equivalence and the
absent report of a lone-terminator vendor source at a concrete construction. -/
theorem C7_absent_empty_equiv_witness :
    (obs (from_streams (some []) none none) = obs (from_streams none none none)) ∧
    (⟨finalBuf (some [10]) none none, 0, 0, 0⟩ : BoardId).vendor = none :=
  ⟨(C7_absent_empty_equiv none none).1,
    (C7_absent_empty_equiv none none).2.2.2.2.2.2.1
      ⟨finalBuf (some [10]) none none, 0, 0, 0⟩
      (from_streams_ok (some [10]) none none
        ⟨fun s hs => by injection hs with e; subst e; decide,
         fun s hs => (nomatch hs), fun s hs => (nomatch hs)⟩)⟩

/-- C8: two successfully constructed values whose three accessors agree can
still compare unequal under the derived structural equality, because equality
compares the entire fixed buffer including bytes at or beyond `version_end`. -/
theorem C8_structural_inequality :
    ∃ b1 b2 : BoardId,
      from_streams none none none = .ok b1 ∧
      from_streams (some [10]) none none = .ok b2 ∧
      b1.vendor = b2.vendor ∧ b1.name = b2.name ∧ b1.version = b2.version ∧ b1 ≠ b2 := by
  have hfits : fits (some [10]) none none := by
    refine ⟨fun s hs => ?_, fun s hs => (nomatch hs), fun s hs => (nomatch hs)⟩
    injection hs with hs
    subst hs
    decide
  refine ⟨⟨List.replicate 255 0, 0, 0, 0⟩,
    ⟨finalBuf (some [10]) none none, srcCount (some [10]),
      srcCount (some [10]) + srcCount none,
      srcCount (some [10]) + srcCount none + srcCount none⟩,
    rfl, from_streams_ok _ _ _ hfits, by decide, by decide, by decide, by decide⟩

/-- C9: under the monotonic-offset invariant every accessor is total: the
checked (panic-modelling) accessors succeed and agree with the plain ones, and
every returned slice is computable from the prefix `buffer[0..version_end)`
alone, so nothing outside `[0, version_end)` is read. -/
theorem C9_accessor_safety (b : BoardId)
    (h1 : b.vendor_end ≤ b.name_end) (h2 : b.name_end ≤ b.version_end)
    (h3 : b.version_end ≤ BUFSZ) (hlen : b.buffer.length = BUFSZ) :
    b.vendorChecked = some b.vendor ∧
    b.nameChecked = some b.name ∧
    b.versionChecked = some b.version ∧
    (∀ s, b.vendor = some s → s = (b.buffer.take b.version_end).take b.vendor_end) ∧
    (∀ s, b.name = some s →
      s = ((b.buffer.take b.version_end).take b.name_end).drop b.vendor_end) ∧
    (∀ s, b.version = some s → s = (b.buffer.take b.version_end).drop b.name_end) := by
  refine ⟨?_, ?_, ?_, ?_, ?_, ?_⟩
  · unfold BoardId.vendorChecked sliceChecked BoardId.vendor
    rw [if_pos ⟨Nat.zero_le _, by omega⟩]
    simp [List.drop_zero]
  · unfold BoardId.nameChecked sliceChecked BoardId.name
    rw [if_pos ⟨h1, by omega⟩]
    simp
  · unfold BoardId.versionChecked sliceChecked BoardId.version
    rw [if_pos ⟨h2, by omega⟩]
    simp
  · intro s hs
    unfold BoardId.vendor at hs
    split_ifs at hs with hc
    injection hs with hs
    subst hs
    rw [List.take_take, Nat.min_eq_left (by omega)]
  · intro s hs
    unfold BoardId.name at hs
    split_ifs at hs with hc
    injection hs with hs
    subst hs
    rw [List.take_take, Nat.min_eq_left h2]
  · intro s hs
    unfold BoardId.version at hs
    split_ifs at hs with hc
    injection hs with hs
    subst hs
    rfl

/-- Witness for C9 at a concrete invariant-satisfying value. -/
theorem C9_accessor_safety_witness :
    (⟨List.replicate 255 0, 0, 0, 0⟩ : BoardId).vendorChecked =
      some (⟨List.replicate 255 0, 0, 0, 0⟩ : BoardId).vendor :=
  (C9_accessor_safety ⟨List.replicate 255 0, 0, 0, 0⟩ (by decide) (by decide) (by decide)
    (by rw [List.length_replicate]; decide)).1

end Board
